import Mathlib

/-!
Verification of the channel-proposal message layer of go-perun
(client/proposalmsgs.go) and the channel backend registry, as a shallow
embedding.  External collaborators (the primitive wire codecs of
perun.network/go-perun/wire, the wallet address codec, the allocation codec
and the app registry) are modelled abstractly: the wire is a list of typed
tokens, one token per self-delimiting primitive encoding, and the app
registry is a parameter of the decoder.
-/

namespace Perun

/-- A wallet.Address.  The address codec is external; the field encodeOk
models whether the external Address.Encode call succeeds on this value
(addresses decoded from the wire always have it set, since only
successfully encoded addresses appear on the wire). -/
structure Address where
  val : Nat
  encodeOk : Bool
deriving DecidableEq, Repr

/-- One self-delimiting primitive encoding on the wire, as produced by the
external codecs (wire.Encode., wallet address encoding, app data encoding,
allocation encoding). -/
inductive Token where
  | u64 : Nat → Token
  | bigInt : Int → Token
  | addr : Nat → Token
  | data : Nat → Token
  | alloc : Nat → Token
  | i32 : Int → Token
  | sessID : Nat → Token
  | str : String → Token
deriving DecidableEq, Repr

/-- Errors, one constructor per error construction site.  prim stands for
an error produced inside an external codec; errors.Errorf call sites become
dedicated constructors carrying the formatted arguments; withMessage is
errors.WithMessage, which wraps a cause. -/
inductive Err where
  | prim : String → Err
  | tooManyParts : Nat → Nat → Err
  | tooFewParts : Int → Err
  | encPartIdx : Nat → Err
  | unknownApp : Nat → Err
  | withMessage : String → Err → Err
deriving DecidableEq, Repr

/-- Whether the error e carries t in its cause chain (through
errors.WithMessage wrapping); used to state that an underlying codec error
is propagated rather than swallowed. -/
def Err.contains : Err → Err → Bool
  | Err.withMessage m c, t => (Err.withMessage m c == t) || Err.contains c t
  | e, t => e == t

/-- Whether the error is wrapped with a field-identifying message, i.e. its
outermost layer is an errors.WithMessage. -/
def Err.fieldAnnotated : Err → Bool
  | Err.withMessage _ _ => true
  | _ => false

/-- math.MaxInt32. -/
def maxInt32 : Nat := 2147483647

/-- The app registry (channel.AppFromDefinition), external: which address
values resolve to a known application. -/
structure Env where
  knownApp : Nat → Bool

/-! ## Primitive codec models -/

/-- Encoding of a wallet.Address by the external address codec. -/
def encodeAddr (a : Address) : Except Err Token :=
  if a.encodeOk then Except.ok (Token.addr a.val)
  else Except.error (Err.prim "address encoding failure")

/-- Decoding of a uint64 by the external wire codec. -/
def decodeU64 : List Token → Except Err (Nat × List Token)
  | Token.u64 n :: ts => Except.ok (n, ts)
  | _ => Except.error (Err.prim "uint64 decoding failure")

/-- Decoding of a big.Int by the external wire codec. -/
def decodeBigInt : List Token → Except Err (Int × List Token)
  | Token.bigInt n :: ts => Except.ok (n, ts)
  | _ => Except.error (Err.prim "big integer decoding failure")

/-- wallet.DecodeAddress. -/
def decodeAddress : List Token → Except Err (Address × List Token)
  | Token.addr v :: ts => Except.ok (Address.mk v true, ts)
  | _ => Except.error (Err.prim "address decoding failure")

/-- app.DecodeData: the application data codec resolved via AppDef. -/
def decodeData : List Token → Except Err (Nat × List Token)
  | Token.data d :: ts => Except.ok (d, ts)
  | _ => Except.error (Err.prim "data decoding failure")

/-- perunio.Decode of a channel.Allocation. -/
def decodeAlloc : List Token → Except Err (Nat × List Token)
  | Token.alloc v :: ts => Except.ok (v, ts)
  | _ => Except.error (Err.prim "allocation decoding failure")

/-- Decoding of an int32 by the external wire codec. -/
def decodeI32 : List Token → Except Err (Int × List Token)
  | Token.i32 n :: ts => Except.ok (n, ts)
  | _ => Except.error (Err.prim "int32 decoding failure")

/-- Decoding of a [32]byte by the external wire codec. -/
def decodeSessID : List Token → Except Err (Nat × List Token)
  | Token.sessID s :: ts => Except.ok (s, ts)
  | _ => Except.error (Err.prim "[32]byte decoding failure")

/-- Decoding of a string by the external wire codec. -/
def decodeString : List Token → Except Err (String × List Token)
  | Token.str s :: ts => Except.ok (s, ts)
  | _ => Except.error (Err.prim "string decoding failure")

/-! ## ChannelProposal -/

/-- client.ChannelProposal.  ChallengeDuration is a uint64, Nonce a
big.Int, InitData the app data (abstract), InitBals the allocation
(abstract, 0 standing for the empty channel.Allocation value). -/
structure ChannelProposal where
  ChallengeDuration : Nat
  Nonce : Int
  ParticipantAddr : Address
  AppDef : Address
  InitData : Nat
  InitBals : Nat
  Parts : List Address
deriving DecidableEq, Repr

/-- The encode loop over c.Parts starting at index i: each address encoded
in order; on the first failure, errors.Errorf reports the index (the
underlying codec error is discarded by the source at that call site).
Returns the tokens written before the failure and the error, if any. -/
def encodeParts : List Address → Nat → List Token × Option Err
  | [], _ => ([], none)
  | a :: rest, i =>
    match encodeAddr a with
    | Except.error _ => ([], some (Err.encPartIdx i))
    | Except.ok t =>
      match encodeParts rest (i + 1) with
      | (ts, e) => (t :: ts, e)

/-- ChannelProposal.Encode: returns the tokens written to the writer
(including those written before a failure) and the error, if any. -/
def ChannelProposal.Encode (c : ChannelProposal) : List Token × Option Err :=
  let w1 := [Token.u64 c.ChallengeDuration, Token.bigInt c.Nonce]
  match encodeAddr c.ParticipantAddr with
  | Except.error e => (w1, some e)
  | Except.ok t1 =>
  match encodeAddr c.AppDef with
  | Except.error e => (w1 ++ [t1], some e)
  | Except.ok t2 =>
  let w2 := w1 ++ [t1, t2, Token.data c.InitData, Token.alloc c.InitBals]
  if c.Parts.length > maxInt32 then
    (w2, some (Err.tooManyParts maxInt32 c.Parts.length))
  else
    match encodeParts c.Parts 0 with
    | (ts, e) => (w2 ++ [Token.i32 (c.Parts.length : Int)] ++ ts, e)

/-- The decode loop filling c.Parts: n addresses decoded in order; a
failure aborts, returning the prefix decoded so far (the source leaves the
remaining slice entries nil). -/
def decodeParts : Nat → List Token → List Address × List Token × Option Err
  | 0, r => ([], r, none)
  | n + 1, r =>
    match decodeAddress r with
    | Except.error e => ([], r, some e)
    | Except.ok (a, r1) =>
      match decodeParts n r1 with
      | (as, r2, e) => (a :: as, r2, e)

/-- ChannelProposal.Decode: the receiver is threaded explicitly, so the
result exposes exactly which fields the source has assigned before a
failure.  Returns the updated receiver, the unconsumed tokens, and the
error, if any. -/
def ChannelProposal.Decode (env : Env) (c : ChannelProposal) (r : List Token) :
    ChannelProposal × List Token × Option Err :=
  match decodeU64 r with
  | Except.error e => (c, r, some e)
  | Except.ok (cd, r1) =>
  let c1 := { c with ChallengeDuration := cd }
  match decodeBigInt r1 with
  | Except.error e => (c1, r1, some e)
  | Except.ok (nonce, r2) =>
  let c2 := { c1 with Nonce := nonce }
  match decodeAddress r2 with
  | Except.error e => (c2, r2, some e)
  | Except.ok (pa, r3) =>
  let c3 := { c2 with ParticipantAddr := pa }
  match decodeAddress r3 with
  | Except.error e => (c3, r3, some e)
  | Except.ok (ad, r4) =>
  let c4 := { c3 with AppDef := ad }
  if env.knownApp ad.val = false then
    (c4, r4, some (Err.unknownApp ad.val))
  else
  match decodeData r4 with
  | Except.error e => (c4, r4, some e)
  | Except.ok (d, r5) =>
  let c5 := { c4 with InitData := d }
  let c6 := { c5 with InitBals := 0 }
  match decodeAlloc r5 with
  | Except.error e => (c6, r5, some e)
  | Except.ok (b, r6) =>
  let c7 := { c5 with InitBals := b }
  match decodeI32 r6 with
  | Except.error e => (c7, r6, some e)
  | Except.ok (numParts, r7) =>
  if numParts < 2 then
    (c7, r7, some (Err.tooFewParts numParts))
  else
    match decodeParts numParts.toNat r7 with
    | (ps, r8, e) => ({ c7 with Parts := ps }, r8, e)

/-- The zero value of ChannelProposal, as constructed by the registered
decoder (var m ChannelProposal). -/
def zeroProposal : ChannelProposal :=
  { ChallengeDuration := 0, Nonce := 0, ParticipantAddr := Address.mk 0 true,
    AppDef := Address.mk 0 true, InitData := 0, InitBals := 0, Parts := [] }

/-- The decoder registered for msg.ChannelProposal: constructs a zero-value
message, calls Decode on it, and returns the (possibly partially
populated) message together with the error. -/
def decodeChannelProposalMsg (env : Env) (r : List Token) :
    ChannelProposal × Option Err :=
  match zeroProposal.Decode env r with
  | (c, _, e) => (c, e)

/-! ## ChannelProposalAcc and ChannelProposalRej -/

/-- client.SessionID, a [32]byte, modelled abstractly. -/
abbrev SessionID := Nat

/-- client.ChannelProposalAcc. -/
structure ChannelProposalAcc where
  SessID : SessionID
  ParticipantAddr : Address
deriving DecidableEq, Repr

/-- ChannelProposalAcc.Encode: SessID via wire.Encode (failures wrapped
with a SID encoding message), then the participant address (failures
wrapped with a participant address encoding message).  Returns the tokens
written and the error, if any. -/
def ChannelProposalAcc.Encode (acc : ChannelProposalAcc) :
    List Token × Option Err :=
  match encodeAddr acc.ParticipantAddr with
  | Except.error e =>
      ([Token.sessID acc.SessID],
       some (Err.withMessage "participant address encoding" e))
  | Except.ok t => ([Token.sessID acc.SessID, t], none)

/-- ChannelProposalAcc.Decode: mirrors Encode; each failure is wrapped
with a field-identifying message. -/
def ChannelProposalAcc.Decode (acc : ChannelProposalAcc) (r : List Token) :
    ChannelProposalAcc × List Token × Option Err :=
  match decodeSessID r with
  | Except.error e => (acc, r, some (Err.withMessage "SID decoding" e))
  | Except.ok (s, r1) =>
  let acc1 := { acc with SessID := s }
  match decodeAddress r1 with
  | Except.error e =>
      (acc1, r1, some (Err.withMessage "participant address decoding" e))
  | Except.ok (a, r2) => ({ acc1 with ParticipantAddr := a }, r2, none)

/-- The zero value of ChannelProposalAcc (var m ChannelProposalAcc). -/
def zeroAcc : ChannelProposalAcc :=
  { SessID := 0, ParticipantAddr := Address.mk 0 true }

/-- client.ChannelProposalRej. -/
structure ChannelProposalRej where
  SessID : SessionID
  Reason : String
deriving DecidableEq, Repr

/-- ChannelProposalRej.Encode: wire.Encode of SessID and Reason. -/
def ChannelProposalRej.Encode (rej : ChannelProposalRej) :
    List Token × Option Err :=
  ([Token.sessID rej.SessID, Token.str rej.Reason], none)

/-- ChannelProposalRej.Decode: wire.Decode of SessID and Reason; any
underlying error is returned as is, without field-identifying wrapping. -/
def ChannelProposalRej.Decode (rej : ChannelProposalRej) (r : List Token) :
    ChannelProposalRej × List Token × Option Err :=
  match decodeSessID r with
  | Except.error e => (rej, r, some e)
  | Except.ok (s, r1) =>
  let rej1 := { rej with SessID := s }
  match decodeString r1 with
  | Except.error e => (rej1, r1, some e)
  | Except.ok (reason, r2) => ({ rej1 with Reason := reason }, r2, none)

/-- The zero value of ChannelProposalRej (var m ChannelProposalRej). -/
def zeroRej : ChannelProposalRej := { SessID := 0, Reason := "" }

/-! ## Channel backend registry

The channel package code implementing the global backend registry is not
part of the sources here (only its test, channel/backend_test.go, is), so
the registry is modelled from the spec. -/

/-- Modelled from the spec: channel.Params, opaque channel parameters. -/
abbrev Params := Nat

/-- Modelled from the spec: channel.State, opaque channel state. -/
abbrev ChState := Nat

/-- Modelled from the spec: channel.ID, the 32-byte channel identifier. -/
abbrev ChID := Nat

/-- Modelled from the spec: channel.Sig, a signature. -/
abbrev Sig := Nat

/-- Modelled from the spec: wallet.Account, a signing credential. -/
abbrev Account := Nat

/-- Modelled from the spec: the channel.Backend capability interface with
its three operations (derive channel identity, sign channel state, verify
a signature against channel state); the implementing code is not under the
sources here. -/
structure Backend where
  ChannelID : Params → ChID
  Sign : Account → Params → ChState → Except Err Sig
  Verify : Address → Params → ChState → Sig → Except Err Bool

/-- Modelled from the spec: the process-wide registry holding the
currently active Backend (none before any SetBackend call). -/
structure BackendRegistry where
  backend : Option Backend

/-- Modelled from the spec: SetBackend installs b as the sole active
Backend, replacing any previous one. -/
def SetBackend (_r : BackendRegistry) (b : Backend) : BackendRegistry :=
  { backend := some b }

/-- A log of the backend method invocations, recording the arguments of
each call in order, so that delegation can be stated as: exactly one call,
with exactly the given arguments. -/
structure CallTrace where
  cidArgs : List Params
  signArgs : List (Account × Params × ChState)
  verifyArgs : List (Address × Params × ChState × Sig)

/-- Invocation of a Backend's ChannelID method, recorded in the trace. -/
def Backend.callChannelID (b : Backend) (p : Params) (t : CallTrace) :
    ChID × CallTrace :=
  (b.ChannelID p, { t with cidArgs := t.cidArgs ++ [p] })

/-- Invocation of a Backend's Sign method, recorded in the trace. -/
def Backend.callSign (b : Backend) (a : Account) (p : Params) (s : ChState)
    (t : CallTrace) : Except Err Sig × CallTrace :=
  (b.Sign a p s, { t with signArgs := t.signArgs ++ [(a, p, s)] })

/-- Invocation of a Backend's Verify method, recorded in the trace. -/
def Backend.callVerify (b : Backend) (ad : Address) (p : Params)
    (s : ChState) (sig : Sig) (t : CallTrace) :
    Except Err Bool × CallTrace :=
  (b.Verify ad p s sig, { t with verifyArgs := t.verifyArgs ++ [(ad, p, s, sig)] })

/-- Modelled from the spec: the package-level channel.ChannelID, a pure
delegation to the currently installed Backend (none before installation,
a programming error in the source). -/
def GlobalChannelID (r : BackendRegistry) (p : Params) (t : CallTrace) :
    Option ChID × CallTrace :=
  match r.backend with
  | some b => match b.callChannelID p t with | (v, t1) => (some v, t1)
  | none => (none, t)

/-- Modelled from the spec: the package-level channel.Sign, a pure
delegation to the currently installed Backend. -/
def GlobalSign (r : BackendRegistry) (a : Account) (p : Params)
    (s : ChState) (t : CallTrace) : Option (Except Err Sig) × CallTrace :=
  match r.backend with
  | some b => match b.callSign a p s t with | (v, t1) => (some v, t1)
  | none => (none, t)

/-- Modelled from the spec: the package-level channel.Verify, a pure
delegation to the currently installed Backend. -/
def GlobalVerify (r : BackendRegistry) (ad : Address) (p : Params)
    (s : ChState) (sig : Sig) (t : CallTrace) :
    Option (Except Err Bool) × CallTrace :=
  match r.backend with
  | some b => match b.callVerify ad p s sig t with | (v, t1) => (some v, t1)
  | none => (none, t)

/-! ## Bound constants -/

/-- Modelled from the spec: channel.MaxNumAssets, a compile-time upper
bound on allocation asset cardinality; the defining code is not under the
sources here, the spec fixes only that it is a fixed non-negative integer
representable in an unsigned 16-bit range. -/
def MaxNumAssets : Nat := 1024

/-- Modelled from the spec: channel.MaxNumParts, a compile-time upper
bound on participant cardinality, representable in an unsigned 16-bit
range per the spec. -/
def MaxNumParts : Nat := 1024

/-- Modelled from the spec: channel.MaxNumSubAllocations, a compile-time
upper bound on sub-allocation cardinality, representable in an unsigned
16-bit range per the spec. -/
def MaxNumSubAllocations : Nat := 1024

/-! ## Concrete sample values -/

/-- An environment where every address resolves to a known app. -/
def envAll : Env := { knownApp := fun _ => true }

/-- A well-behaved sample address. -/
def addrA : Address := { val := 1, encodeOk := true }

/-- A second well-behaved sample address. -/
def addrB : Address := { val := 2, encodeOk := true }

/-- An address whose external encoding fails. -/
def badAddr : Address := { val := 5, encodeOk := false }

/-- A sample valid proposal with two participants. -/
def sampleProposal : ChannelProposal :=
  { ChallengeDuration := 100, Nonce := 42, ParticipantAddr := addrA,
    AppDef := { val := 3, encodeOk := true }, InitData := 7, InitBals := 9,
    Parts := [addrA, addrB] }

/-- A sample accept message. -/
def sampleAcc : ChannelProposalAcc := { SessID := 11, ParticipantAddr := addrB }

/-- A sample reject message. -/
def sampleRej : ChannelProposalRej := { SessID := 11, Reason := "no thanks" }

/-- A proposal with more participants than fit in an int32. -/
def bigProposal : ChannelProposal :=
  { ChallengeDuration := 1, Nonce := 2, ParticipantAddr := addrA,
    AppDef := addrB, InitData := 3, InitBals := 4,
    Parts := List.replicate 2147483648 addrA }

/-- A proposal whose second participant address fails to encode. -/
def partFailProposal : ChannelProposal :=
  { ChallengeDuration := 1, Nonce := 2, ParticipantAddr := addrA,
    AppDef := addrB, InitData := 3, InitBals := 4,
    Parts := [addrA, badAddr] }

/-- A proposal with a single participant (below the protocol minimum). -/
def smallProposal : ChannelProposal :=
  { ChallengeDuration := 1, Nonce := 2, ParticipantAddr := addrA,
    AppDef := addrB, InitData := 3, InitBals := 4, Parts := [addrA] }

/-! ## Helper lemmas -/

theorem encodeParts_all_ok (ps : List Address) (k : Nat)
    (h : ∀ a ∈ ps, a.encodeOk = true) :
    encodeParts ps k = (ps.map (fun a => Token.addr a.val), none) := by
  induction ps generalizing k with
  | nil => rfl
  | cons a rest ih =>
    have ha : a.encodeOk = true := h a (List.mem_cons_self a rest)
    have hr : ∀ x ∈ rest, x.encodeOk = true :=
      fun x hx => h x (List.mem_cons_of_mem a hx)
    simp [encodeParts, encodeAddr, ha, ih (k + 1) hr]

theorem decodeParts_map (ps : List Address) (rest : List Token)
    (h : ∀ a ∈ ps, a.encodeOk = true) :
    decodeParts ps.length (ps.map (fun a => Token.addr a.val) ++ rest)
      = (ps, rest, none) := by
  induction ps with
  | nil => rfl
  | cons a tail ih =>
    have ha : a.encodeOk = true := h a (List.mem_cons_self a tail)
    have ht : ∀ x ∈ tail, x.encodeOk = true :=
      fun x hx => h x (List.mem_cons_of_mem a hx)
    have haddr : Address.mk a.val true = a := by
      obtain ⟨v, ok⟩ := a
      simp_all
    simp [decodeParts, decodeAddress, haddr, ih ht]

theorem encode_ok (c : ChannelProposal)
    (hpa : c.ParticipantAddr.encodeOk = true)
    (had : c.AppDef.encodeOk = true)
    (hparts : ∀ a ∈ c.Parts, a.encodeOk = true)
    (hmax : c.Parts.length ≤ maxInt32) :
    c.Encode =
      ([Token.u64 c.ChallengeDuration, Token.bigInt c.Nonce,
        Token.addr c.ParticipantAddr.val, Token.addr c.AppDef.val,
        Token.data c.InitData, Token.alloc c.InitBals,
        Token.i32 (c.Parts.length : Int)]
        ++ c.Parts.map (fun a => Token.addr a.val), none) := by
  simp [ChannelProposal.Encode, encodeAddr, hpa, had,
    encodeParts_all_ok c.Parts 0 hparts, Nat.not_lt.mpr hmax]

theorem decode_encoded (env : Env) (c0 : ChannelProposal)
    (cd : Nat) (n : Int) (pav adv x v : Nat) (ps : List Address)
    (rest : List Token)
    (hps : ∀ a ∈ ps, a.encodeOk = true)
    (happ : env.knownApp adv = true)
    (h2 : 2 ≤ ps.length) :
    ChannelProposal.Decode env c0
      ([Token.u64 cd, Token.bigInt n, Token.addr pav, Token.addr adv,
        Token.data x, Token.alloc v, Token.i32 (ps.length : Int)]
        ++ ps.map (fun a => Token.addr a.val) ++ rest)
      = ({ ChallengeDuration := cd, Nonce := n,
           ParticipantAddr := Address.mk pav true,
           AppDef := Address.mk adv true, InitData := x, InitBals := v,
           Parts := ps }, rest, none) := by
  have hnot : ¬((ps.length : Int) < 2) := by exact_mod_cast Nat.not_lt.mpr h2
  simp [ChannelProposal.Decode, decodeU64, decodeBigInt, decodeAddress,
    decodeData, decodeAlloc, decodeI32, happ, hnot, decodeParts_map ps rest hps]

theorem encodeParts_first_fail (ps : List Address) (k i : Nat)
    (hi : i < ps.length)
    (hfail : (ps.get ⟨i, hi⟩).encodeOk = false)
    (hok : ∀ a ∈ ps.take i, a.encodeOk = true) :
    (encodeParts ps k).2 = some (Err.encPartIdx (k + i)) := by
  induction ps generalizing k i with
  | nil => exact absurd hi (Nat.not_lt_zero i)
  | cons a rest ih =>
    cases i with
    | zero =>
      simp only [List.get] at hfail
      simp [encodeParts, encodeAddr, hfail]
    | succ j =>
      have ha : a.encodeOk = true := hok a (by simp)
      have hj : j < rest.length := by simpa using hi
      have hfj : (rest.get ⟨j, hj⟩).encodeOk = false := by
        simpa using hfail
      have hoj : ∀ x ∈ rest.take j, x.encodeOk = true := by
        intro x hx
        exact hok x (by simp [hx])
      have hrec := ih (k + 1) j hj hfj hoj
      have harith : k + 1 + j = k + (j + 1) := by omega
      simp [encodeParts, encodeAddr, ha, hrec, harith]

/-! ## Claim theorems -/

/-- C1: for every ChannelProposal with at least 2 participants and all
sub-fields valid (encodable addresses, resolvable app, participant count
within the int32 range), decoding the tokens produced by Encode from a
zero-value receiver yields a value equal to the original field-for-field,
consuming the whole stream; the same round-trip holds for every
ChannelProposalAcc with an encodable address and for every
ChannelProposalRej. -/
theorem proposal_msgs_roundtrip (env : Env) (p : ChannelProposal)
    (acc : ChannelProposalAcc) (rej : ChannelProposalRej)
    (hpa : p.ParticipantAddr.encodeOk = true)
    (had : p.AppDef.encodeOk = true)
    (hparts : ∀ a ∈ p.Parts, a.encodeOk = true)
    (h2 : 2 ≤ p.Parts.length)
    (hmax : p.Parts.length ≤ maxInt32)
    (happ : env.knownApp p.AppDef.val = true)
    (hacc : acc.ParticipantAddr.encodeOk = true) :
    (p.Encode.2 = none ∧ zeroProposal.Decode env p.Encode.1 = (p, [], none))
    ∧ (acc.Encode.2 = none ∧ zeroAcc.Decode acc.Encode.1 = (acc, [], none))
    ∧ zeroRej.Decode rej.Encode.1 = (rej, [], none) := by
  refine ⟨⟨?_, ?_⟩, ⟨?_, ?_⟩, ?_⟩
  · rw [encode_ok p hpa had hparts hmax]
  · rw [encode_ok p hpa had hparts hmax]
    obtain ⟨cd, n, pa, ad, x, v, ps⟩ := p
    obtain ⟨pav, paok⟩ := pa
    obtain ⟨adv, adok⟩ := ad
    simp only at hpa had happ hparts h2
    have hd := decode_encoded env zeroProposal cd n pav adv x v ps [] hparts happ h2
    simp only [List.append_nil] at hd
    simp only [List.append_assoc] at hd ⊢
    rw [hd]
    subst hpa had
    rfl
  · obtain ⟨s, pa⟩ := acc
    simp only at hacc
    simp [ChannelProposalAcc.Encode, encodeAddr, hacc]
  · obtain ⟨s, pa⟩ := acc
    obtain ⟨v, ok⟩ := pa
    simp only at hacc
    subst hacc
    simp [ChannelProposalAcc.Encode, ChannelProposalAcc.Decode, encodeAddr,
      decodeSessID, decodeAddress]
  · obtain ⟨s, reason⟩ := rej
    simp [ChannelProposalRej.Encode, ChannelProposalRej.Decode,
      decodeSessID, decodeString]

/-- Witness for C1 at concrete inputs. -/
theorem proposal_msgs_roundtrip_witness :
    (sampleProposal.Encode.2 = none ∧
      zeroProposal.Decode envAll sampleProposal.Encode.1
        = (sampleProposal, [], none))
    ∧ (sampleAcc.Encode.2 = none ∧
      zeroAcc.Decode sampleAcc.Encode.1 = (sampleAcc, [], none))
    ∧ zeroRej.Decode sampleRej.Encode.1 = (sampleRej, [], none) :=
  proposal_msgs_roundtrip envAll sampleProposal sampleAcc sampleRej
    (by decide) (by decide) (by decide) (by decide) (by decide)
    (by decide) (by decide)

/-- C2: decoding a buffer whose well-formed prefix carries an encoded
participant count below 2 fails with the error naming the actual count,
consumes nothing past the count, and leaves the Parts field of the
receiver unpopulated from the wire. -/
theorem decode_min_participants (env : Env) (c0 : ChannelProposal)
    (cd : Nat) (n : Int) (pav adv x v : Nat) (k : Int) (junk : List Token)
    (happ : env.knownApp adv = true) (hk : k < 2) :
    ChannelProposal.Decode env c0
      ([Token.u64 cd, Token.bigInt n, Token.addr pav, Token.addr adv,
        Token.data x, Token.alloc v, Token.i32 k] ++ junk)
      = ({ c0 with
             ChallengeDuration := cd
             Nonce := n
             ParticipantAddr := Address.mk pav true
             AppDef := Address.mk adv true
             InitData := x
             InitBals := v },
         junk, some (Err.tooFewParts k))
    ∧ (ChannelProposal.Decode env c0
        ([Token.u64 cd, Token.bigInt n, Token.addr pav, Token.addr adv,
          Token.data x, Token.alloc v, Token.i32 k] ++ junk)).1.Parts
        = c0.Parts := by
  constructor
  · simp [ChannelProposal.Decode, decodeU64, decodeBigInt, decodeAddress,
      decodeData, decodeAlloc, decodeI32, happ, hk]
  · simp [ChannelProposal.Decode, decodeU64, decodeBigInt, decodeAddress,
      decodeData, decodeAlloc, decodeI32, happ, hk]

/-- Witness for C2: a buffer with participant count 1 followed by a
well-formed address. -/
theorem decode_min_participants_witness :
    ChannelProposal.Decode envAll zeroProposal
      ([Token.u64 9, Token.bigInt 8, Token.addr 1, Token.addr 2,
        Token.data 3, Token.alloc 4, Token.i32 1] ++ [Token.addr 7])
      = ({ zeroProposal with
             ChallengeDuration := 9
             Nonce := 8
             ParticipantAddr := Address.mk 1 true
             AppDef := Address.mk 2 true
             InitData := 3
             InitBals := 4 },
         [Token.addr 7], some (Err.tooFewParts 1))
    ∧ (ChannelProposal.Decode envAll zeroProposal
        ([Token.u64 9, Token.bigInt 8, Token.addr 1, Token.addr 2,
          Token.data 3, Token.alloc 4, Token.i32 1] ++ [Token.addr 7])).1.Parts
        = zeroProposal.Parts :=
  decode_min_participants envAll zeroProposal 9 8 1 2 3 4 1 [Token.addr 7]
    (by decide) (by decide)

/-- C5: when the decoded AppDef does not resolve to a known application,
decode fails right after reading AppDef with the unknown-app error, and
the tokens following AppDef (InitData and all later fields) are left
unread. -/
theorem decode_unknown_app (env : Env) (c0 : ChannelProposal)
    (cd : Nat) (n : Int) (pav adv : Nat) (junk : List Token)
    (happ : env.knownApp adv = false) :
    ChannelProposal.Decode env c0
      ([Token.u64 cd, Token.bigInt n, Token.addr pav, Token.addr adv]
        ++ junk)
      = ({ c0 with
             ChallengeDuration := cd
             Nonce := n
             ParticipantAddr := Address.mk pav true
             AppDef := Address.mk adv true },
         junk, some (Err.unknownApp adv)) := by
  simp [ChannelProposal.Decode, decodeU64, decodeBigInt, decodeAddress, happ]

/-- Witness for C5: an environment knowing no app, with data tokens left
unconsumed after the failure. -/
theorem decode_unknown_app_witness :
    ChannelProposal.Decode (Env.mk fun _ => false) zeroProposal
      ([Token.u64 9, Token.bigInt 8, Token.addr 1, Token.addr 2]
        ++ [Token.data 3, Token.alloc 4])
      = ({ zeroProposal with
             ChallengeDuration := 9
             Nonce := 8
             ParticipantAddr := Address.mk 1 true
             AppDef := Address.mk 2 true },
         [Token.data 3, Token.alloc 4], some (Err.unknownApp 2)) :=
  decode_unknown_app (Env.mk fun _ => false) zeroProposal 9 8 1 2
    [Token.data 3, Token.alloc 4] (by decide)

/-- C9: Encode does not enforce the minimum-participants invariant: a
proposal with fewer than 2 participants whose other fields encode without
error encodes successfully, writing the small participant count to the
wire. -/
theorem encode_no_min_check (c : ChannelProposal)
    (hpa : c.ParticipantAddr.encodeOk = true)
    (had : c.AppDef.encodeOk = true)
    (hparts : ∀ a ∈ c.Parts, a.encodeOk = true)
    (hlen : c.Parts.length < 2) :
    c.Encode =
      ([Token.u64 c.ChallengeDuration, Token.bigInt c.Nonce,
        Token.addr c.ParticipantAddr.val, Token.addr c.AppDef.val,
        Token.data c.InitData, Token.alloc c.InitBals,
        Token.i32 (c.Parts.length : Int)]
        ++ c.Parts.map (fun a => Token.addr a.val), none) :=
  encode_ok c hpa had hparts (by simp only [maxInt32]; omega)

/-- Witness for C9: a single-participant proposal encodes successfully
with count 1 on the wire. -/
theorem encode_no_min_check_witness :
    smallProposal.Encode =
      ([Token.u64 smallProposal.ChallengeDuration,
        Token.bigInt smallProposal.Nonce,
        Token.addr smallProposal.ParticipantAddr.val,
        Token.addr smallProposal.AppDef.val,
        Token.data smallProposal.InitData,
        Token.alloc smallProposal.InitBals,
        Token.i32 (smallProposal.Parts.length : Int)]
        ++ smallProposal.Parts.map (fun a => Token.addr a.val), none) :=
  encode_no_min_check smallProposal (by decide) (by decide) (by decide)
    (by decide)

/-- C4: after SetBackend installs b, each package-level operation invokes
exactly the corresponding method of b exactly once, with the arguments
passed through unmodified (one new trace entry recording exactly those
arguments), and returns the result of b. -/
theorem backend_delegation (r0 : BackendRegistry) (b : Backend)
    (p : Params) (a : Account) (s : ChState) (ad : Address) (sg : Sig)
    (t : CallTrace) :
    GlobalChannelID (SetBackend r0 b) p t
      = (some (b.ChannelID p), { t with cidArgs := t.cidArgs ++ [p] })
    ∧ GlobalSign (SetBackend r0 b) a p s t
      = (some (b.Sign a p s), { t with signArgs := t.signArgs ++ [(a, p, s)] })
    ∧ GlobalVerify (SetBackend r0 b) ad p s sg t
      = (some (b.Verify ad p s sg),
         { t with verifyArgs := t.verifyArgs ++ [(ad, p, s, sg)] }) := by
  refine ⟨?_, ?_, ?_⟩ <;>
    simp [GlobalChannelID, GlobalSign, GlobalVerify, SetBackend,
      Backend.callChannelID, Backend.callSign, Backend.callVerify]

/-- C8: the three bound constants each fit in an unsigned 16-bit
integer. -/
theorem max_constants_fit_uint16 :
    MaxNumAssets ≤ 65535 ∧ MaxNumParts ≤ 65535
      ∧ MaxNumSubAllocations ≤ 65535 := by
  decide

/-- C3 counterexample: for a proposal with 2^31 participants, Encode does
return the overflow error naming the limit and the count, but bytes (the
six header fields) have already been written to the writer when it fails,
so it does not fail before any bytes are written. -/
theorem encode_overflow_writes_header_cx :
    bigProposal.Encode.1 ≠ []
    ∧ bigProposal.Encode.2
        = some (Err.tooManyParts maxInt32 2147483648) := by
  have hpa : bigProposal.ParticipantAddr.encodeOk = true := rfl
  have had : bigProposal.AppDef.encodeOk = true := rfl
  have hlen : bigProposal.Parts.length = 2147483648 := by
    rw [show bigProposal.Parts = List.replicate 2147483648 addrA from rfl,
      List.length_replicate]
  have hbig : bigProposal.Parts.length > maxInt32 := by
    rw [hlen]; decide
  have hE : bigProposal.Encode
      = ([Token.u64 bigProposal.ChallengeDuration,
          Token.bigInt bigProposal.Nonce,
          Token.addr bigProposal.ParticipantAddr.val,
          Token.addr bigProposal.AppDef.val,
          Token.data bigProposal.InitData,
          Token.alloc bigProposal.InitBals],
         some (Err.tooManyParts maxInt32 bigProposal.Parts.length)) := by
    simp [ChannelProposal.Encode, encodeAddr, hpa, had, hbig]
  rw [hlen] at hE
  constructor
  · rw [hE]; simp
  · rw [hE]

/-- C3 amended: for every proposal whose participant count exceeds
2^31 - 1 and whose header fields encode without error, Encode fails with
an error reporting both the limit 2^31 - 1 and the actual count, after
writing the six header fields but before writing the participant count or
any participant address. -/
theorem encode_overflow (c : ChannelProposal)
    (hpa : c.ParticipantAddr.encodeOk = true)
    (had : c.AppDef.encodeOk = true)
    (hbig : c.Parts.length > maxInt32) :
    c.Encode =
      ([Token.u64 c.ChallengeDuration, Token.bigInt c.Nonce,
        Token.addr c.ParticipantAddr.val, Token.addr c.AppDef.val,
        Token.data c.InitData, Token.alloc c.InitBals],
       some (Err.tooManyParts maxInt32 c.Parts.length)) := by
  simp [ChannelProposal.Encode, encodeAddr, hpa, had, hbig]

/-- Witness for the amended C3 at a proposal with 2^31 participants. -/
theorem encode_overflow_witness :
    bigProposal.Encode =
      ([Token.u64 1, Token.bigInt 2, Token.addr 1, Token.addr 2,
        Token.data 3, Token.alloc 4],
       some (Err.tooManyParts maxInt32 2147483648)) := by
  have hlen : bigProposal.Parts.length = 2147483648 := by
    rw [show bigProposal.Parts = List.replicate 2147483648 addrA from rfl,
      List.length_replicate]
  have hbig : bigProposal.Parts.length > maxInt32 := by
    rw [hlen]; decide
  have h := encode_overflow bigProposal rfl rfl hbig
  rw [hlen] at h
  exact h

/-- C6 counterexample: encoding partFailProposal fails at participant 1,
whose address codec reports a primitive error; the returned error does
identify index 1 but does not carry the underlying codec error in its
cause chain: the source builds a fresh error and discards the cause. -/
theorem encode_part_error_swallowed_cx :
    encodeAddr badAddr = Except.error (Err.prim "address encoding failure")
    ∧ partFailProposal.Encode.2 = some (Err.encPartIdx 1)
    ∧ Err.contains (Err.encPartIdx 1)
        (Err.prim "address encoding failure") = false :=
  ⟨rfl, rfl, rfl⟩

/-- C6 amended: when encoding participant address i fails (all earlier
participants encoding fine), the returned error identifies the index i,
but the underlying codec error is discarded rather than wrapped: the
result is exactly the fresh index-naming error. -/
theorem encode_part_error_index (c : ChannelProposal) (i : Nat)
    (hpa : c.ParticipantAddr.encodeOk = true)
    (had : c.AppDef.encodeOk = true)
    (hmax : c.Parts.length ≤ maxInt32)
    (hi : i < c.Parts.length)
    (hfail : (c.Parts.get ⟨i, hi⟩).encodeOk = false)
    (hok : ∀ a ∈ c.Parts.take i, a.encodeOk = true) :
    c.Encode.2 = some (Err.encPartIdx i) := by
  have hfst := encodeParts_first_fail c.Parts 0 i hi hfail hok
  rcases hE : encodeParts c.Parts 0 with ⟨ts, e⟩
  rw [hE] at hfst
  simp only at hfst
  simp [ChannelProposal.Encode, encodeAddr, hpa, had, hE,
    Nat.not_lt.mpr hmax, hfst]

/-- Witness for the amended C6: the second participant of
partFailProposal fails to encode and the error names index 1. -/
theorem encode_part_error_index_witness :
    partFailProposal.Encode.2 = some (Err.encPartIdx 1) :=
  encode_part_error_index partFailProposal 1 (by decide) (by decide)
    (by decide) (by decide) (by decide) (by decide)

/-- C7 counterexample: a failing ChannelProposalRej decode returns the
underlying codec error as is, with no field-identifying wrapping, so a
Rej decode failure does not name which field failed. -/
theorem rej_decode_error_unwrapped_cx :
    (zeroRej.Decode []).2.2 = some (Err.prim "[32]byte decoding failure")
    ∧ Err.fieldAnnotated (Err.prim "[32]byte decoding failure") = false := by
  decide

/-- C7 amended: every ChannelProposalAcc decode failure is wrapped with a
field-identifying message; every ChannelProposalRej decode failure is
returned unwrapped, without naming the failing field. -/
theorem acc_rej_decode_error_wrapping :
    (∀ (acc0 : ChannelProposalAcc) (r : List Token) (e : Err),
        (acc0.Decode r).2.2 = some e → Err.fieldAnnotated e = true)
    ∧ (∀ (rej0 : ChannelProposalRej) (r : List Token) (e : Err),
        (rej0.Decode r).2.2 = some e → Err.fieldAnnotated e = false) := by
  constructor
  · intro acc0 r e h
    cases r with
    | nil =>
      simp [ChannelProposalAcc.Decode, decodeSessID] at h
      subst h
      rfl
    | cons hd tl =>
      cases hd
      case sessID s =>
        cases tl with
        | nil =>
          simp [ChannelProposalAcc.Decode, decodeSessID, decodeAddress] at h
          subst h
          rfl
        | cons hd2 tl2 =>
          cases hd2 <;>
            simp [ChannelProposalAcc.Decode, decodeSessID,
              decodeAddress] at h <;>
            (subst h; rfl)
      all_goals
        simp [ChannelProposalAcc.Decode, decodeSessID] at h
        subst h
        rfl
  · intro rej0 r e h
    cases r with
    | nil =>
      simp [ChannelProposalRej.Decode, decodeSessID] at h
      subst h
      rfl
    | cons hd tl =>
      cases hd
      case sessID s =>
        cases tl with
        | nil =>
          simp [ChannelProposalRej.Decode, decodeSessID, decodeString] at h
          subst h
          rfl
        | cons hd2 tl2 =>
          cases hd2 <;>
            simp [ChannelProposalRej.Decode, decodeSessID,
              decodeString] at h <;>
            (subst h; rfl)
      all_goals
        simp [ChannelProposalRej.Decode, decodeSessID] at h
        subst h
        rfl

/-- Witness for the amended C7 at concrete failing decodes. -/
theorem acc_rej_decode_error_wrapping_witness :
    Err.fieldAnnotated
        (Err.withMessage "SID decoding"
          (Err.prim "[32]byte decoding failure")) = true
    ∧ Err.fieldAnnotated (Err.prim "[32]byte decoding failure") = false :=
  ⟨acc_rej_decode_error_wrapping.1 zeroAcc []
      (Err.withMessage "SID decoding" (Err.prim "[32]byte decoding failure"))
      (by decide),
   acc_rej_decode_error_wrapping.2 zeroRej []
      (Err.prim "[32]byte decoding failure") (by decide)⟩

/-- C10: ChannelProposal.Decode is not atomic on error: when the
allocation field fails to decode, the registered decoder returns the
message with ChallengeDuration, Nonce, ParticipantAddr, AppDef and
InitData already holding the decoded values (and InitBals reset to the
zero allocation) together with the non-nil error; likewise, when the
participant-count field fails, all earlier fields including InitBals keep
their decoded values. -/
theorem decode_partial_population (env : Env)
    (cd : Nat) (n : Int) (pav adv x v : Nat)
    (happ : env.knownApp adv = true) :
    (decodeChannelProposalMsg env
        [Token.u64 cd, Token.bigInt n, Token.addr pav, Token.addr adv,
         Token.data x]
      = ({ zeroProposal with
             ChallengeDuration := cd
             Nonce := n
             ParticipantAddr := Address.mk pav true
             AppDef := Address.mk adv true
             InitData := x
             InitBals := 0 },
         some (Err.prim "allocation decoding failure")))
    ∧ (decodeChannelProposalMsg env
        [Token.u64 cd, Token.bigInt n, Token.addr pav, Token.addr adv,
         Token.data x, Token.alloc v]
      = ({ zeroProposal with
             ChallengeDuration := cd
             Nonce := n
             ParticipantAddr := Address.mk pav true
             AppDef := Address.mk adv true
             InitData := x
             InitBals := v },
         some (Err.prim "int32 decoding failure"))) := by
  constructor <;>
    simp [decodeChannelProposalMsg, ChannelProposal.Decode, decodeU64,
      decodeBigInt, decodeAddress, decodeData, decodeAlloc, decodeI32, happ]

/-- Witness for C10 at a concrete truncated buffer. -/
theorem decode_partial_population_witness :
    (decodeChannelProposalMsg envAll
        [Token.u64 9, Token.bigInt 8, Token.addr 1, Token.addr 2,
         Token.data 3]
      = ({ zeroProposal with
             ChallengeDuration := 9
             Nonce := 8
             ParticipantAddr := Address.mk 1 true
             AppDef := Address.mk 2 true
             InitData := 3
             InitBals := 0 },
         some (Err.prim "allocation decoding failure")))
    ∧ (decodeChannelProposalMsg envAll
        [Token.u64 9, Token.bigInt 8, Token.addr 1, Token.addr 2,
         Token.data 3, Token.alloc 4]
      = ({ zeroProposal with
             ChallengeDuration := 9
             Nonce := 8
             ParticipantAddr := Address.mk 1 true
             AppDef := Address.mk 2 true
             InitData := 3
             InitBals := 4 },
         some (Err.prim "int32 decoding failure"))) :=
  decode_partial_population envAll 9 8 1 2 3 4 (by decide)

end Perun
